import Mathlib

/-!
Shallow embedding of the geometry, canvas-grid, table and chart-layout code of
the `bblsh/ratatui` repository (files under `src/layout`, `src/widgets`).

Machine integers are embedded as `Nat` (for `u16`/`usize`) and `Int` (for
`i32`), with the source's saturating / checked behaviour made explicit:
`u16::saturating_add` becomes `satAdd` (capped at `U16MAX`),
`u16::saturating_sub` is plain truncated `Nat` subtraction, and an operation
that can panic in Rust (overflowing `+`/`-`, out-of-bounds indexing) is
embedded as a function into `Option`, `none` standing for the panic.
-/

namespace Ratatui

/-- `u16::MAX` (65535). -/
def U16MAX : ℕ := 65535

/-- `u16::saturating_add`. -/
def satAdd (a b : ℕ) : ℕ := min (a + b) U16MAX

/-- `u16::saturating_mul`. -/
def satMul (a b : ℕ) : ℕ := min (a * b) U16MAX

/-- Checked `u16` addition: `none` models the overflow panic. -/
def cadd (a b : ℕ) : Option ℕ := if a + b ≤ U16MAX then some (a + b) else none

/-- Checked `u16` subtraction: `none` models the underflow panic. -/
def csub (a b : ℕ) : Option ℕ := if b ≤ a then some (a - b) else none

/-- `src/layout/rect.rs`: `struct Rect { x, y, width, height : u16 }`. -/
structure Rect where
  x : ℕ
  y : ℕ
  width : ℕ
  height : ℕ
deriving DecidableEq, Repr

/-- The fields of a `Rect` are `u16` values. -/
def Rect.Valid (r : Rect) : Prop :=
  r.x ≤ U16MAX ∧ r.y ≤ U16MAX ∧ r.width ≤ U16MAX ∧ r.height ≤ U16MAX

instance (r : Rect) : Decidable r.Valid := by unfold Rect.Valid; infer_instance

/-- `Rect::right`: `self.x.saturating_add(self.width)`. -/
def Rect.right (r : Rect) : ℕ := satAdd r.x r.width

/-- `Rect::bottom`: `self.y.saturating_add(self.height)`. -/
def Rect.bottom (r : Rect) : ℕ := satAdd r.y r.height

/-- `Rect::left`. -/
def Rect.left (r : Rect) : ℕ := r.x

/-- `Rect::top`. -/
def Rect.top (r : Rect) : ℕ := r.y

/-- `Rect::area`: `self.width.saturating_mul(self.height)`. -/
def Rect.area (r : Rect) : ℕ := satMul r.width r.height

/-- `Rect::is_empty`: `self.width == 0 || self.height == 0`. -/
def Rect.is_empty (r : Rect) : Bool := r.width == 0 || r.height == 0

/-- `Rect::new(x, y, width, height)`.  The non-clipping branch (entered when
`width * height <= u16::MAX`) is embedded exactly.  The clipping branch of the
source computes the reduced dimensions with `f64` division and `sqrt`;
IEEE-754 arithmetic is outside this embedding, so that branch is represented
by a zero-sized placeholder and every theorem below only evaluates `new` at
arguments with `width * height ≤ U16MAX` (each such call site in the claims
has one dimension equal to 1). -/
def Rect.new (x y width height : ℕ) : Rect :=
  if width * height > U16MAX then
    { x := x, y := y, width := 0, height := 0 }
  else
    { x := x, y := y, width := width, height := height }

/-- `struct Margin { horizontal, vertical : u16 }` (declared in
`src/layout`'s margin module, which is not among the staged files; the two
`u16` fields are fixed by their uses in `Rect::inner` and its test). -/
structure Margin where
  horizontal : ℕ
  vertical : ℕ
deriving DecidableEq, Repr

/-- `Rect::inner(margin)`. -/
def Rect.inner (r : Rect) (margin : Margin) : Rect :=
  let doubled_margin_horizontal := satMul margin.horizontal 2
  let doubled_margin_vertical := satMul margin.vertical 2
  if r.width < doubled_margin_horizontal ∨ r.height < doubled_margin_vertical then
    { x := 0, y := 0, width := 0, height := 0 }
  else
    { x := satAdd r.x margin.horizontal,
      y := satAdd r.y margin.vertical,
      width := r.width - doubled_margin_horizontal,
      height := r.height - doubled_margin_vertical }

/-- `Rect::intersection(other)`. -/
def Rect.intersection (a b : Rect) : Rect :=
  let x1 := max a.x b.x
  let y1 := max a.y b.y
  let x2 := min a.right b.right
  let y2 := min a.bottom b.bottom
  { x := x1, y := y1, width := x2 - x1, height := y2 - y1 }

/-- `Rect::intersects(other)`. -/
def Rect.intersects (a b : Rect) : Bool :=
  decide (a.x < b.right) && decide (a.right > b.x) &&
    decide (a.y < b.bottom) && decide (a.bottom > b.y)

/-- The `Rows` iterator state: `struct Rows { rect : Rect, current_row : u16 }`. -/
structure Rows where
  rect : Rect
  current_row : ℕ
deriving DecidableEq, Repr

/-- One step of `impl Iterator for Rows`: `next` yields
`Rect::new(rect.x, current_row, rect.width, 1)` while `current_row < rect.bottom()`. -/
def Rows.next (s : Rows) : Option (Rect × Rows) :=
  if s.current_row ≥ s.rect.bottom then none
  else some (Rect.new s.rect.x s.current_row s.rect.width 1,
    { s with current_row := s.current_row + 1 })

/-- The `Columns` iterator state: `struct Columns { rect : Rect, current_column : u16 }`. -/
structure Columns where
  rect : Rect
  current_column : ℕ
deriving DecidableEq, Repr

/-- One step of `impl Iterator for Columns`. -/
def Columns.next (s : Columns) : Option (Rect × Columns) :=
  if s.current_column ≥ s.rect.right then none
  else some (Rect.new s.current_column s.rect.y 1 s.rect.height,
    { s with current_column := s.current_column + 1 })

/-- The list of rows the `Rows` iterator yields from a state with
`current_row = current`.  The recursion is bounded by an explicit fuel
argument so that it is structural; `Rows.next` stops as soon as
`current ≥ rect.bottom`, so `rect.bottom - current` steps of fuel make the
fuel cut-off unreachable (`rowsGo_eq_map` below gives the closed form). -/
def rowsGo (rect : Rect) : ℕ → ℕ → List Rect
  | _, 0 => []
  | current, fuel + 1 =>
    if current ≥ rect.bottom then []
    else Rect.new rect.x current rect.width 1 :: rowsGo rect (current + 1) fuel

/-- The list of columns the `Columns` iterator yields, fuel-bounded as in
`rowsGo`. -/
def columnsGo (rect : Rect) : ℕ → ℕ → List Rect
  | _, 0 => []
  | current, fuel + 1 =>
    if current ≥ rect.right then []
    else Rect.new current rect.y 1 rect.height :: columnsGo rect (current + 1) fuel

/-- `Rect::rows()` collected into a list: starts at `current_row = self.y`. -/
def Rect.rows (r : Rect) : List Rect := rowsGo r r.y (r.bottom - r.y)

/-- `Rect::columns()` collected into a list: starts at `current_column = self.x`. -/
def Rect.columns (r : Rect) : List Rect := columnsGo r r.x (r.right - r.x)

/-- `struct Offset { x, y : i32 }` (declared in `src/layout`'s offset module,
which is not among the staged files; the two `i32` fields are fixed by the
uses in `Rect::offset` and its tests). -/
structure Offset where
  x : ℤ
  y : ℤ
deriving DecidableEq, Repr

/-- `i32::MAX`. -/
def I32MAX : ℤ := 2 ^ 31 - 1

/-- `i32::MIN`. -/
def I32MIN : ℤ := -(2 ^ 31)

/-- An `Offset`'s fields are `i32` values. -/
def Offset.Valid (o : Offset) : Prop :=
  I32MIN ≤ o.x ∧ o.x ≤ I32MAX ∧ I32MIN ≤ o.y ∧ o.y ≤ I32MAX

instance (o : Offset) : Decidable o.Valid := by unfold Offset.Valid; infer_instance

/-- `i32::saturating_add`. -/
def satAddI32 (a b : ℤ) : ℤ := max I32MIN (min (a + b) I32MAX)

/-- `Rect::offset(offset)`: each coordinate is
`i32::from(coord).saturating_add(offset).clamp(0, (u16::MAX - extent) as i32) as u16`.
Rust's `clamp` panics when its lower bound exceeds its upper bound, which here
would need `width > u16::MAX`; the theorems below assume a `Valid` rect, for
which the bounds are always ordered and the final `as u16` cast is exact. -/
def Rect.offset (r : Rect) (o : Offset) : Rect :=
  { x := (max 0 (min (satAddI32 (r.x : ℤ) o.x) ((U16MAX : ℤ) - (r.width : ℤ)))).toNat,
    y := (max 0 (min (satAddI32 (r.y : ℤ) o.y) ((U16MAX : ℤ) - (r.height : ℤ)))).toNat,
    width := r.width,
    height := r.height }

/-- Modelled from the spec: `Constraint`, "tagged union over {Length(n),
Percentage(p), Ratio(num,den), Min(n), Max(n), Fill(weight)}".  The
constraint module itself is not among the staged files; only this shape is
used by the staged code (`Table` checks the `Percentage` payload, `Chart`
splits an area on one constraint). -/
inductive Constraint where
  | Length (n : ℕ)
  | Percentage (p : ℕ)
  | Ratio (num den : ℕ)
  | MinC (n : ℕ)
  | MaxC (n : ℕ)
  | Fill (weight : ℕ)
deriving DecidableEq, Repr

/-- Modelled from the spec (§4.1): the main-axis length the layout solver
gives the single segment of a one-constraint split with `Flex::Start` and no
spacing — `Length`/`Max` are honored up to the available length, `Percentage`
takes its share of the available length (rounded half-up), `Ratio(num,den)`
resolves to `available*num/den`, and a lone `Min`/`Fill` segment absorbs all
remaining space.  The solver itself is not among the staged files; the claims
below use only this single-constraint case and the bound
`splitOneLen avail c ≤ avail`. -/
def splitOneLen (avail : ℕ) : Constraint → ℕ
  | .Length n => min n avail
  | .Percentage p => min ((avail * p + 50) / 100) avail
  | .Ratio num den => min (avail * num / den) avail
  | .MinC _ => avail
  | .MaxC n => min n avail
  | .Fill _ => avail

/-- `src/style`'s `Color` (not among the staged files): `Reset` plus the named
ANSI colors, indexed colors and RGB colors, per the spec's "simple RGB/named
enumeration".  The staged canvas code only distinguishes `Reset` from
everything else and compares colors for equality. -/
inductive Color where
  | Reset
  | Black
  | Red
  | Green
  | Yellow
  | Blue
  | Magenta
  | Cyan
  | Gray
  | DarkGray
  | LightRed
  | LightGreen
  | LightYellow
  | LightBlue
  | LightMagenta
  | LightCyan
  | White
  | Rgb (r g b : ℕ)
  | Indexed (i : ℕ)
deriving DecidableEq, Repr

/-- `symbols::braille::BLANK` (0x2800), from the symbols module (not among the
staged files). -/
def brailleBLANK : ℕ := 0x2800

/-- `symbols::braille::DOTS`, the per-dot bit masks indexed `[y % 4][x % 2]`
(from the symbols module, not among the staged files; the claims below do not
depend on the particular values). -/
def brailleDOTS : List (List ℕ) :=
  [[0x0001, 0x0008], [0x0002, 0x0010], [0x0004, 0x0020], [0x0040, 0x0080]]

/-- `symbols::half_block::UPPER` = `'▀'`. -/
def halfBlockUPPER : Char := '▀'

/-- `symbols::half_block::LOWER` = `'▄'`. -/
def halfBlockLOWER : Char := '▄'

/-- `symbols::block::FULL` = `'█'`. -/
def blockFULL : Char := '█'

/-- `src/widgets/canvas.rs`: `struct Layer { string: String, colors: Vec<(Color, Color)> }`;
the string is embedded as its list of characters. -/
structure Layer where
  string : List Char
  colors : List (Color × Color)
deriving DecidableEq, Repr

/-- `src/widgets/canvas.rs`: `struct BrailleGrid`. -/
structure BrailleGrid where
  width : ℕ
  height : ℕ
  utf16_code_points : List ℕ
  colors : List Color
deriving DecidableEq, Repr

/-- `BrailleGrid::new(width, height)`. -/
def BrailleGrid.new (width height : ℕ) : BrailleGrid :=
  { width := width, height := height,
    utf16_code_points := List.replicate (width * height) brailleBLANK,
    colors := List.replicate (width * height) Color.Reset }

/-- `BrailleGrid::paint(x, y, color)`: `index = y / 4 * width + x / 2`; each of
the two vectors is updated through `get_mut`, which leaves it unchanged when
`index` is out of bounds — `List.set` has exactly that semantics. -/
def BrailleGrid.paint (g : BrailleGrid) (x y : ℕ) (color : Color) : BrailleGrid :=
  let index := y / 4 * g.width + x / 2
  { g with
    utf16_code_points :=
      g.utf16_code_points.set index
        (Nat.lor (g.utf16_code_points.getD index 0)
          ((brailleDOTS.getD (y % 4) []).getD (x % 2) 0)),
    colors := g.colors.set index color }

/-- `src/widgets/canvas.rs`: `struct CharGrid`. -/
structure CharGrid where
  width : ℕ
  height : ℕ
  cells : List Char
  colors : List Color
  cell_char : Char
deriving DecidableEq, Repr

/-- `CharGrid::new(width, height, cell_char)`. -/
def CharGrid.new (width height : ℕ) (cell_char : Char) : CharGrid :=
  { width := width, height := height,
    cells := List.replicate (width * height) ' ',
    colors := List.replicate (width * height) Color.Reset,
    cell_char := cell_char }

/-- `CharGrid::paint(x, y, color)`: `index = y * width + x`, both vectors
updated through `get_mut` (no-op when `index` is out of bounds). -/
def CharGrid.paint (g : CharGrid) (x y : ℕ) (color : Color) : CharGrid :=
  let index := y * g.width + x
  { g with
    cells := g.cells.set index g.cell_char,
    colors := g.colors.set index color }

/-- `src/widgets/canvas.rs`: `struct HalfBlockGrid`. -/
structure HalfBlockGrid where
  width : ℕ
  height : ℕ
  pixels : List (List Color)
deriving DecidableEq, Repr

/-- `HalfBlockGrid::new(width, height)`. -/
def HalfBlockGrid.new (width height : ℕ) : HalfBlockGrid :=
  { width := width, height := height,
    pixels := List.replicate (height * 2) (List.replicate width Color.Reset) }

/-- `HalfBlockGrid::paint(x, y, color)`: `self.pixels[y][x] = color` — plain
indexing, so an out-of-bounds `y` or `x` panics; `none` models the panic. -/
def HalfBlockGrid.paint (g : HalfBlockGrid) (x y : ℕ) (color : Color) :
    Option HalfBlockGrid :=
  match g.pixels[y]? with
  | none => none
  | some row =>
    if x < row.length then
      some { g with pixels := g.pixels.set y (row.set x color) }
    else none

/-- Itertools' `tuples()` for pairs: groups consecutive elements two by two,
dropping an unpaired trailing element. -/
def tuples2 {α : Type} : List α → List (α × α)
  | a :: b :: rest => (a, b) :: tuples2 rest
  | _ => []

/-- The `vertical_color_pairs` iterator of `HalfBlockGrid::save`:
`pixels.iter().tuples().flat_map(|(upper_row, lower_row)| zip(upper_row, lower_row))`.
Each element is an `(upper, lower)` pair of pixel colors. -/
def verticalColorPairs (pixels : List (List Color)) : List (Color × Color) :=
  (tuples2 pixels).flatMap fun rows => List.zip rows.1 rows.2

/-- The character match of `HalfBlockGrid::save` (the source's last arm binds
its components under swapped names, but computes plain equality of the two
colors, as embedded here). -/
def halfBlockChar : Color × Color → Char
  | (Color.Reset, Color.Reset) => ' '
  | (Color.Reset, _) => halfBlockLOWER
  | (_, Color.Reset) => halfBlockUPPER
  | (u, l) => if u = l then blockFULL else halfBlockUPPER

/-- The `(fg, bg)` match of `HalfBlockGrid::save`. -/
def halfBlockColors : Color × Color → Color × Color
  | (Color.Reset, Color.Reset) => (Color.Reset, Color.Reset)
  | (Color.Reset, l) => (l, Color.Reset)
  | (u, Color.Reset) => (u, Color.Reset)
  | (u, l) => (u, l)

/-- `HalfBlockGrid::save()`. -/
def HalfBlockGrid.save (g : HalfBlockGrid) : Layer :=
  { string := (verticalColorPairs g.pixels).map halfBlockChar,
    colors := (verticalColorPairs g.pixels).map halfBlockColors }

/-- `src/widgets/table/table.rs`: `ensure_percentages_less_than_100(widths)`
asserts `p <= 100` for every `Constraint::Percentage(p)`; `true` means the
assertion passes, `false` models the panic. -/
def ensure_percentages_less_than_100 (widths : List Constraint) : Bool :=
  widths.all fun w =>
    match w with
    | Constraint.Percentage p => decide (p ≤ 100)
    | _ => true

/-- The width-constraint state of a `Table` (the other fields of the source
struct — rows, styles, spacing and so on — play no part in the constraint
check and are omitted). -/
structure Table where
  widths : List Constraint
deriving DecidableEq, Repr

/-- `Table::new(rows, widths)` restricted to its width handling: collects the
constraints and runs `ensure_percentages_less_than_100` on them; `none`
models the assertion panic. -/
def Table.new (widths : List Constraint) : Option Table :=
  if ensure_percentages_less_than_100 widths then some { widths := widths } else none

/-- The `Table::widths` setter: same check, then replaces the stored widths. -/
def Table.setWidths (t : Table) (widths : List Constraint) : Option Table :=
  if ensure_percentages_less_than_100 widths then some { t with widths := widths }
  else none

/-- `src/widgets/chart.rs`: `enum LegendPosition`. -/
inductive LegendPosition where
  | Top
  | TopRight
  | TopLeft
  | Left
  | Right
  | Bottom
  | BottomRight
  | BottomLeft
deriving DecidableEq, Repr

/-- `LegendPosition::layout(area, legend_width, legend_height, x_title_width,
y_title_width)`.  The outer `Option` models panics of the `u16` arithmetic
(`area.height - legend_height`, the `+ 1` / `- 1` adjustments in the
positional arms); the inner `Option` is the source's return type — `none`
means the legend is not rendered. -/
def LegendPosition.layout (pos : LegendPosition) (area : Rect)
    (legend_width legend_height x_title_width y_title_width : ℕ) :
    Option (Option Rect) := do
  let hm0 ← csub area.height legend_height
  let height_margin : ℤ := (hm0 : ℤ)
    - (if x_title_width ≠ 0 then 1 else 0)
    - (if y_title_width ≠ 0 then 1 else 0)
  if height_margin < 0 then
    pure none
  else do
    let xy ← (match pos with
      | .TopRight => do
        let t ← cadd legend_width y_title_width
        let x ← csub area.right legend_width
        if t > area.width then
          let y ← cadd area.top 1
          pure (x, y)
        else
          pure (x, area.top)
      | .TopLeft =>
        if y_title_width ≠ 0 then do
          let y ← cadd area.top 1
          pure (area.left, y)
        else
          pure (area.left, area.top)
      | .Top => do
        let w ← csub area.width legend_width
        let x := w / 2
        let t ← cadd area.left y_title_width
        let xx ← cadd area.left x
        if t > x then
          let y ← cadd area.top 1
          pure (xx, y)
        else
          pure (xx, area.top)
      | .Left => do
        let h ← csub area.height legend_height
        let y0 := h / 2
        let y1 ← if y_title_width ≠ 0 then cadd y0 1 else pure y0
        let y2 := if x_title_width ≠ 0 then y1 - 1 else y1
        let y ← cadd area.top y2
        pure (area.left, y)
      | .Right => do
        let h ← csub area.height legend_height
        let y0 := h / 2
        let y1 ← if y_title_width ≠ 0 then cadd y0 1 else pure y0
        let y2 := if x_title_width ≠ 0 then y1 - 1 else y1
        let y ← cadd area.top y2
        let x ← csub area.right legend_width
        pure (x, y)
      | .BottomLeft => do
        let t ← cadd x_title_width legend_width
        let b ← csub area.bottom legend_height
        if t > area.width then
          let y ← csub b 1
          pure (area.left, y)
        else
          pure (area.left, b)
      | .BottomRight => do
        let x ← csub area.right legend_width
        let b ← csub area.bottom legend_height
        if x_title_width ≠ 0 then
          let y ← csub b 1
          pure (x, y)
        else
          pure (x, b)
      | .Bottom => do
        let w ← csub area.width legend_width
        let x ← cadd area.left (w / 2)
        let t1 ← cadd x legend_width
        let t2 ← csub area.right x_title_width
        let b ← csub area.bottom legend_height
        if t1 > t2 then
          let y ← csub b 1
          pure (x, y)
        else
          pure (x, b) : Option (ℕ × ℕ))
    pure (some (Rect.new xy.1 xy.2 legend_width legend_height))

/-- The legend part of `Chart::layout` (`src/widgets/chart.rs`): `ws` is the
list of display widths of the named datasets (`legends` in the source, each
already a `u16` produced by a wrapping `as u16` cast), so `legends.max()` is
`ws.max?` and `legends.count()` is `ws.length`; `x_title`/`y_title` are the
title widths passed through to `LegendPosition::layout`.  `legend_width` and
`legend_height` are the source's `u16` additions `inner_width + 2` and
`legends.count() as u16 + 2`: the `usize → u16` cast of the count wraps
(`% (U16MAX + 1)`), and each `+ 2` is a checked `cadd` whose `none` models
the overflow panic.  The two one-constraint splits of the graph area by the
hidden-legend constraints are embedded by the spec-modelled `splitOneLen`.
The outer `Option` models panics; the inner `Option` is the computed
`legend_area`, which stays `None` when the guards fail. -/
def chartLegendArea (graph_area : Rect) (hidden_w hidden_h : Constraint)
    (ws : List ℕ) (x_title y_title : ℕ) (pos : LegendPosition) :
    Option (Option Rect) :=
  match ws.max? with
  | none => some none
  | some inner_width => do
    let legend_width ← cadd inner_width 2
    let legend_height ← cadd (ws.length % (U16MAX + 1)) 2
    let max_legend_width := splitOneLen graph_area.width hidden_w
    let max_legend_height := splitOneLen graph_area.height hidden_h
    if 0 < inner_width ∧ legend_width ≤ max_legend_width ∧
        legend_height ≤ max_legend_height then
      pos.layout graph_area legend_width legend_height x_title y_title
    else pure none

/-- Modelled from the spec: the solver contract of `Layout::split` —
"producing exactly `len(constraints)` rectangles" (§4.1).  The solver is not
among the staged files, so a layout is abstracted by its split function
together with this contract relating it to its constraint list. -/
def LayoutSplitContract (constraints : List Constraint)
    (layoutSplit : Rect → List Rect) : Prop :=
  ∀ a : Rect, (layoutSplit a).length = constraints.length

/-- `Rect::split::<N>(layout)`: `layout.split(self).to_vec().try_into()
.expect("invalid number of rects")` — `none` models the panic of `expect`
when the produced vector's length differs from `N`. -/
def Rect.split (r : Rect) (layoutSplit : Rect → List Rect) (N : ℕ) :
    Option (List Rect) :=
  let rects := layoutSplit r
  if rects.length = N then some rects else none

/-- The cell character as the claim states it, written from the claim's case
list: `(Reset, Reset)` a space, `(Reset, c)` a lower half block, `(c, Reset)`
an upper half block, two equal non-`Reset` colors a full block, two different
non-`Reset` colors an upper half block. -/
def claimHalfBlockChar (upper lower : Color) : Char :=
  if upper = Color.Reset ∧ lower = Color.Reset then ' '
  else if upper = Color.Reset then halfBlockLOWER
  else if lower = Color.Reset then halfBlockUPPER
  else if upper = lower then blockFULL
  else halfBlockUPPER

/-- The cell colors as the claim states them: reset colors for the blank
cell, foreground = the one non-`Reset` pixel color for the half blocks, and
foreground = upper / background = lower for two non-`Reset` colors (for two
equal non-`Reset` colors that makes both components the shared color, which
is also what the source stores). -/
def claimHalfBlockColors (upper lower : Color) : Color × Color :=
  if upper = Color.Reset ∧ lower = Color.Reset then (Color.Reset, Color.Reset)
  else if upper = Color.Reset then (lower, Color.Reset)
  else if lower = Color.Reset then (upper, Color.Reset)
  else (upper, lower)

example : Rect.new 1 2 3 4 = ⟨1, 2, 3, 4⟩ := by decide
example : (Rect.new 1 2 3 4).area = 12 := by decide
example : Rect.inner ⟨1, 2, 3, 4⟩ ⟨1, 2⟩ = ⟨2, 4, 1, 0⟩ := by decide
example : Rect.intersection ⟨1, 2, 3, 4⟩ ⟨2, 3, 4, 5⟩ = ⟨2, 3, 2, 3⟩ := by decide
example : Rect.intersection ⟨1, 1, 2, 2⟩ ⟨4, 4, 2, 2⟩ = ⟨4, 4, 0, 0⟩ := by decide
example : Rect.intersects ⟨1, 2, 3, 4⟩ ⟨2, 3, 4, 5⟩ = true := by decide
example : Rect.intersects ⟨1, 2, 3, 4⟩ ⟨5, 6, 7, 8⟩ = false := by decide
example : Rect.intersects ⟨5, 0, 0, 1⟩ ⟨0, 0, 10, 1⟩ = true := by decide
example : (Rect.intersection ⟨5, 0, 0, 1⟩ ⟨0, 0, 10, 1⟩).is_empty = true := by decide
example : Rect.rows ⟨0, 0, 3, 2⟩ = [⟨0, 0, 3, 1⟩, ⟨0, 1, 3, 1⟩] := by decide
example : Rect.columns ⟨0, 0, 3, 2⟩ = [⟨0, 0, 1, 2⟩, ⟨1, 0, 1, 2⟩, ⟨2, 0, 1, 2⟩] := by
  decide
example : Rect.offset ⟨1, 2, 3, 4⟩ ⟨5, 6⟩ = ⟨6, 8, 3, 4⟩ := by decide
example : Rect.offset ⟨4, 3, 3, 4⟩ ⟨-2, -1⟩ = ⟨2, 2, 3, 4⟩ := by decide
example : Rect.offset ⟨1, 2, 3, 4⟩ ⟨-5, -6⟩ = ⟨0, 0, 3, 4⟩ := by decide
example : Rect.offset ⟨65035, 65035, 100, 100⟩ ⟨1000, 1000⟩ = ⟨65435, 65435, 100, 100⟩ := by
  decide
example :
    chartLegendArea ⟨0, 0, 10, 10⟩ ( Constraint.Ratio 1 4) ( Constraint.Ratio 1 4)
      [3] 0 0 LegendPosition.TopRight = some none := by decide
example :
    chartLegendArea ⟨0, 0, 10, 3⟩ (Constraint.MinC 0) (Constraint.MinC 0)
      [1] 1 1 LegendPosition.TopRight = some none := by decide
example :
    chartLegendArea ⟨0, 0, 40, 40⟩ ( Constraint.Ratio 1 4) ( Constraint.Ratio 1 4)
      [3] 0 0 LegendPosition.TopRight = some (some (Rect.new 35 0 5 3)) := by decide
example :
    HalfBlockGrid.save ⟨1, 1, [[Color.Red], [Color.Reset]]⟩ =
      ⟨['▀'], [(Color.Red, Color.Reset)]⟩ := by decide
example :
    HalfBlockGrid.save ⟨2, 1, [[Color.Red, Color.Blue], [Color.Red, Color.Green]]⟩ =
      ⟨['█', '▀'], [(Color.Red, Color.Red), (Color.Blue, Color.Green)]⟩ := by decide
example :
    HalfBlockGrid.paint (HalfBlockGrid.new 1 1) 1 0 Color.Red = none := by decide
example :
    CharGrid.paint (CharGrid.new 2 2 'x') 2 0 Color.Red ≠ CharGrid.new 2 2 'x' := by decide

/-! ## Supporting lemmas -/

/-- A one-constraint split never hands out more than the available length. -/
theorem splitOneLen_le (avail : ℕ) (c : Constraint) : splitOneLen avail c ≤ avail := by
  cases c <;> simp [splitOneLen]

/-- Closed form of the fuel-bounded row iterator: with enough fuel it yields
one row per coordinate from `current` up to `rect.bottom`. -/
theorem rowsGo_eq_map (rect : Rect) :
    ∀ (fuel n current : ℕ), rect.bottom = current + n → n ≤ fuel →
      rowsGo rect current fuel =
        (List.range n).map fun i => Rect.new rect.x (current + i) rect.width 1 := by
  intro fuel
  induction fuel with
  | zero =>
    intro n current hb hn
    interval_cases n
    simp [rowsGo]
  | succ fuel ih =>
    intro n current hb hn
    match n with
    | 0 => simp [rowsGo, hb]
    | Nat.succ m =>
      rw [rowsGo]
      rw [if_neg (by omega)]
      rw [List.range_succ_eq_map]
      rw [List.map_cons, List.map_map]
      rw [ih m (current + 1) (by omega) (by omega)]
      simp [Function.comp_def, Nat.add_assoc, Nat.add_comm 1]

/-- Closed form of the fuel-bounded column iterator. -/
theorem columnsGo_eq_map (rect : Rect) :
    ∀ (fuel n current : ℕ), rect.right = current + n → n ≤ fuel →
      columnsGo rect current fuel =
        (List.range n).map fun i => Rect.new (current + i) rect.y 1 rect.height := by
  intro fuel
  induction fuel with
  | zero =>
    intro n current hb hn
    interval_cases n
    simp [columnsGo]
  | succ fuel ih =>
    intro n current hb hn
    match n with
    | 0 => simp [columnsGo, hb]
    | Nat.succ m =>
      rw [columnsGo]
      rw [if_neg (by omega)]
      rw [List.range_succ_eq_map]
      rw [List.map_cons, List.map_map]
      rw [ih m (current + 1) (by omega) (by omega)]
      simp [Function.comp_def, Nat.add_assoc, Nat.add_comm 1]

/-- `rowsGo` collects exactly the elements produced by iterating `Rows.next`. -/
theorem rowsGo_unfolds_next (s : Rows) (fuel : ℕ) :
    rowsGo s.rect s.current_row (fuel + 1) =
      (match s.next with
        | none => []
        | some (r, s') => r :: rowsGo s'.rect s'.current_row fuel) := by
  rw [rowsGo, Rows.next]
  by_cases h : s.current_row ≥ s.rect.bottom <;> simp [h]

/-- `columnsGo` collects exactly the elements produced by iterating
`Columns.next`. -/
theorem columnsGo_unfolds_next (s : Columns) (fuel : ℕ) :
    columnsGo s.rect s.current_column (fuel + 1) =
      (match s.next with
        | none => []
        | some (r, s') => r :: columnsGo s'.rect s'.current_column fuel) := by
  rw [columnsGo, Columns.next]
  by_cases h : s.current_column ≥ s.rect.right <;> simp [h]

/-! ## The claims -/

/-- C9: for a rect with `y + height ≤ u16::MAX`, `rows()` yields exactly
`height` rects in top-to-bottom order, the `i`-th being
`Rect::new(x, y + i, width, 1)`; symmetrically, with `x + width ≤ u16::MAX`,
`columns()` yields exactly `width` rects left to right, the `i`-th being
`Rect::new(x + i, y, 1, height)`. -/
theorem rows_columns_enumerate (r : Rect) :
    (r.y + r.height ≤ U16MAX →
        r.rows = ((List.range r.height).map fun i => Rect.new r.x (r.y + i) r.width 1)) ∧
      (r.x + r.width ≤ U16MAX →
        r.columns = ((List.range r.width).map fun i => Rect.new (r.x + i) r.y 1 r.height)) := by
  constructor
  · intro hy
    have hb : r.bottom = r.y + r.height := by
      simp only [Rect.bottom, satAdd]; omega
    rw [Rect.rows, rowsGo_eq_map r _ r.height r.y hb (by omega)]
  · intro hx
    have hr : r.right = r.x + r.width := by
      simp only [Rect.right, satAdd]; omega
    rw [Rect.columns, columnsGo_eq_map r _ r.width r.x hr (by omega)]

/-- C9 witness: the two enumerations at the concrete rect `(0, 0, 3, 2)`. -/
theorem rows_columns_enumerate_witness :
    (Rect.rows ⟨0, 0, 3, 2⟩ =
        ((List.range 2).map fun i => Rect.new 0 (0 + i) 3 1)) ∧
      (Rect.columns ⟨0, 0, 3, 2⟩ =
        ((List.range 3).map fun i => Rect.new (0 + i) 0 1 2)) :=
  ⟨(rows_columns_enumerate ⟨0, 0, 3, 2⟩).1 (by decide),
    (rows_columns_enumerate ⟨0, 0, 3, 2⟩).2 (by decide)⟩

/-- C5: `inner` returns a zero-area rect whenever the doubled horizontal
margin exceeds the width or the doubled vertical margin exceeds the height,
never produces out-of-range (in particular never negative) dimensions, and
`Rect::new(1,2,3,4).inner(&Margin{1,2})` is `Rect{2,4,1,0}`. -/
theorem inner_zero_area (r : Rect) (m : Margin) (hr : r.Valid) :
    ((2 * m.horizontal > r.width ∨ 2 * m.vertical > r.height) → (r.inner m).area = 0) ∧
      (r.inner m).Valid ∧
      Rect.inner (Rect.new 1 2 3 4) ⟨1, 2⟩ = ⟨2, 4, 1, 0⟩ := by
  obtain ⟨x, y, w, h⟩ := r
  obtain ⟨mh, mv⟩ := m
  obtain ⟨hx, hy, hw, hh⟩ := hr
  simp only [Rect.Valid, Rect.inner, Rect.area, satMul, satAdd, U16MAX] at *
  refine ⟨?_, ?_, by decide⟩
  · intro hbig
    split
    · simp
    · rename_i hcond
      rw [not_or] at hcond
      have hw0 : w - min (mh * 2) 65535 = 0 ∨ h - min (mv * 2) 65535 = 0 := by omega
      rcases hw0 with h0 | h0 <;> simp [h0]
  · split <;> first
      | (simp; omega)
      | simp

/-- C5 witness: a margin wider than the rect gives a zero-area rect. -/
theorem inner_zero_area_witness : (Rect.inner ⟨0, 0, 1, 1⟩ ⟨1, 1⟩).area = 0 :=
  (inner_zero_area ⟨0, 0, 1, 1⟩ ⟨1, 1⟩ (by decide)).1 (Or.inl (by decide))

/-- C8: `offset` keeps `width` and `height`, clamps `x` into
`[0, u16::MAX - width]` and `y` into `[0, u16::MAX - height]`, and the
resulting `right()`/`bottom()` equal the unsaturated sums, which never exceed
`u16::MAX` — no coordinate wraps. -/
theorem offset_clamps (r : Rect) (o : Offset) (hr : r.Valid) (ho : o.Valid) :
    (r.offset o).width = r.width ∧ (r.offset o).height = r.height ∧
      (r.offset o).x ≤ U16MAX - r.width ∧ (r.offset o).y ≤ U16MAX - r.height ∧
      (r.offset o).right = (r.offset o).x + r.width ∧
      (r.offset o).right ≤ U16MAX ∧
      (r.offset o).bottom = (r.offset o).y + r.height ∧
      (r.offset o).bottom ≤ U16MAX := by
  obtain ⟨x, y, w, h⟩ := r
  obtain ⟨ox, oy⟩ := o
  obtain ⟨hx, hy, hw, hh⟩ := hr
  obtain ⟨h1, h2, h3, h4⟩ := ho
  simp only [U16MAX] at hx hy hw hh
  simp only [I32MAX, I32MIN] at h1 h2 h3 h4
  refine ⟨rfl, rfl, ?_, ?_, ?_, ?_, ?_, ?_⟩ <;>
    (simp only [Rect.offset, Rect.right, Rect.bottom, satAdd, satAddI32, U16MAX,
      I32MAX, I32MIN]; omega)

/-- C8 witness: offsetting `(1, 2, 3, 4)` by `(5, 6)` keeps the size and the
clamp bounds. -/
theorem offset_clamps_witness :
    (Rect.offset ⟨1, 2, 3, 4⟩ ⟨5, 6⟩).width = 3 ∧
      (Rect.offset ⟨1, 2, 3, 4⟩ ⟨5, 6⟩).x ≤ U16MAX - 3 :=
  ⟨(offset_clamps ⟨1, 2, 3, 4⟩ ⟨5, 6⟩ (by decide) (by decide)).1,
    (offset_clamps ⟨1, 2, 3, 4⟩ ⟨5, 6⟩ (by decide) (by decide)).2.2.1⟩

/-- C10 counterexample: the zero-width rect `(5, 0, 0, 1)` *intersects*
`(0, 0, 10, 1)` according to `Rect::intersects`, yet their
`Rect::intersection` is empty — so `intersects` does not coincide with
"non-empty intersection" on all rects. -/
theorem intersects_claim_counterexample :
    Rect.intersects ⟨5, 0, 0, 1⟩ ⟨0, 0, 10, 1⟩ = true ∧
      (Rect.intersection ⟨5, 0, 0, 1⟩ ⟨0, 0, 10, 1⟩).is_empty = true := by decide

/-- C10 (amended): `intersects` and `intersection` are symmetric, a non-empty
intersection always implies `intersects`, and for rects that are both
non-empty `intersects` holds exactly when the intersection is non-empty (an
empty rect can still satisfy `intersects`, as the counterexample shows). -/
theorem intersects_iff_intersection_nonempty (a b : Rect) :
    a.intersects b = b.intersects a ∧
      a.intersection b = b.intersection a ∧
      ((a.intersection b).is_empty = false → a.intersects b = true) ∧
      (a.is_empty = false → b.is_empty = false →
        (a.intersects b = true ↔ (a.intersection b).is_empty = false)) := by
  obtain ⟨ax, ay, aw, ah⟩ := a
  obtain ⟨bx, by', bw, bh⟩ := b
  simp only [Rect.intersects, Rect.intersection, Rect.is_empty, Rect.right,
    Rect.bottom, satAdd, U16MAX, Bool.and_eq_true, decide_eq_true_eq,
    Bool.or_eq_false_iff, beq_eq_false_iff_ne, ne_eq, Bool.or_eq_true,
    beq_iff_eq] at *
  refine ⟨?_, ?_, ?_, ?_⟩
  · rw [Bool.eq_iff_iff]
    simp only [Bool.and_eq_true, decide_eq_true_eq]
    constructor <;> (intro h; omega)
  · simp only [Rect.mk.injEq]
    refine ⟨Nat.max_comm _ _, Nat.max_comm _ _, ?_, ?_⟩ <;>
      rw [Nat.min_comm, Nat.max_comm]
  · intro h
    omega
  · intro ha hb
    constructor <;> (intro h; omega)

/-- C10 witness: the amended equivalence evaluated at the two concrete
non-empty rects of the repository's own `intersects` test. -/
theorem intersects_iff_intersection_nonempty_witness :
    Rect.intersects ⟨1, 2, 3, 4⟩ ⟨2, 3, 4, 5⟩ = true ↔
      (Rect.intersection ⟨1, 2, 3, 4⟩ ⟨2, 3, 4, 5⟩).is_empty = false :=
  (intersects_iff_intersection_nonempty ⟨1, 2, 3, 4⟩ ⟨2, 3, 4, 5⟩).2.2.2
    (by decide) (by decide)

/-- C3: both `Table::new` and the `Table::widths` setter run
`ensure_percentages_less_than_100`, so each succeeds exactly when every
`Percentage` constraint in the list is at most 100, and panics (`none`)
otherwise. -/
theorem table_rejects_percentage_over_100 (widths : List Constraint) (t : Table) :
    ((Table.new widths).isSome = true ↔
        ∀ p : ℕ, Constraint.Percentage p ∈ widths → p ≤ 100) ∧
      ((t.setWidths widths).isSome = true ↔
        ∀ p : ℕ, Constraint.Percentage p ∈ widths → p ≤ 100) := by
  have hcheck : ensure_percentages_less_than_100 widths = true ↔
      ∀ p : ℕ, Constraint.Percentage p ∈ widths → p ≤ 100 := by
    simp only [ensure_percentages_less_than_100, List.all_eq_true]
    constructor
    · intro h p hp
      have := h _ hp
      simpa using this
    · intro h w hw
      cases w with
      | Percentage p => simpa using h p hw
      | _ => rfl
  constructor
  · rw [Table.new]
    split <;> rename_i hs <;> simp_all
  · rw [Table.setWidths]
    split <;> rename_i hs <;> simp_all

/-- C7: `Rect::split::<N>` returns the layout's rects exactly when the
layout's constraint count equals `N`, and panics (`none`, from the `expect`)
whenever the produced count differs from `N` — given the solver contract
that `Layout::split` produces one rect per constraint. -/
theorem split_count_contract (r : Rect) (constraints : List Constraint)
    (f : Rect → List Rect) (hf : LayoutSplitContract constraints f) (N : ℕ) :
    (N = constraints.length → r.split f N = some (f r)) ∧
      (N ≠ constraints.length → r.split f N = none) := by
  rw [LayoutSplitContract] at hf
  constructor <;> intro h
  · simp [Rect.split, hf r, h]
  · simp only [Rect.split, hf r]
    rw [if_neg (by omega)]

/-- C7 witness: a two-constraint layout split into `N = 2` succeeds and into
`N = 3` panics, at the concrete output of the repository's own doc example. -/
theorem split_count_contract_witness :
    Rect.split ⟨0, 0, 2, 1⟩ (fun _ => [⟨0, 0, 1, 1⟩, ⟨1, 0, 1, 1⟩]) 2 =
        some [⟨0, 0, 1, 1⟩, ⟨1, 0, 1, 1⟩] ∧
      Rect.split ⟨0, 0, 2, 1⟩ (fun _ => [⟨0, 0, 1, 1⟩, ⟨1, 0, 1, 1⟩]) 3 = none :=
  ⟨(split_count_contract ⟨0, 0, 2, 1⟩
      [Constraint.Percentage 50, Constraint.Percentage 50]
      (fun _ => [⟨0, 0, 1, 1⟩, ⟨1, 0, 1, 1⟩]) (fun _ => rfl) 2).1 rfl,
    (split_count_contract ⟨0, 0, 2, 1⟩
      [Constraint.Percentage 50, Constraint.Percentage 50]
      (fun _ => [⟨0, 0, 1, 1⟩, ⟨1, 0, 1, 1⟩]) (fun _ => rfl) 3).2 (by decide)⟩

/-- C1 counterexample: painting the out-of-range dot `(2, 0)` on a 2×2
`CharGrid` (addressable dots are `x < 2`, `y < 2`) is *not* a no-op — the
computed index `0 * 2 + 2 = 2` aliases into the second row's first cell — and
painting the out-of-range dot `(1, 0)` on a 1×1 `HalfBlockGrid` panics
(`pixels[y][x]` indexes the vectors directly). -/
theorem paint_out_of_range_counterexample :
    CharGrid.paint (CharGrid.new 2 2 'x') 2 0 Color.Red ≠ CharGrid.new 2 2 'x' ∧
      HalfBlockGrid.paint (HalfBlockGrid.new 1 1) 1 0 Color.Red = none := by decide

/-- C1 (amended): `BrailleGrid::paint` and `CharGrid::paint` never panic and
leave the grid unchanged when the computed backing index
(`y/4*width + x/2`, resp. `y*width + x`) falls outside the backing vectors;
but an out-of-range dot whose computed index is still in bounds repaints an
aliased cell, and `HalfBlockGrid::paint` indexes `pixels[y][x]` directly, so
it panics exactly when `y ≥ 2*height` or `x ≥ width`. -/
theorem paint_out_of_range_amended :
    (∀ (g : BrailleGrid) (x y : ℕ) (c : Color),
        g.utf16_code_points.length ≤ y / 4 * g.width + x / 2 →
        g.colors.length ≤ y / 4 * g.width + x / 2 →
        g.paint x y c = g) ∧
      (∀ (g : CharGrid) (x y : ℕ) (c : Color),
        g.cells.length ≤ y * g.width + x →
        g.colors.length ≤ y * g.width + x →
        g.paint x y c = g) ∧
      (∀ (g : HalfBlockGrid) (x y : ℕ) (c : Color),
        g.pixels.length = g.height * 2 →
        (∀ row ∈ g.pixels, row.length = g.width) →
        (g.paint x y c = none ↔ g.height * 2 ≤ y ∨ g.width ≤ x)) := by
  refine ⟨?_, ?_, ?_⟩
  · intro g x y c h1 h2
    obtain ⟨w, h, u, cs⟩ := g
    simp only [BrailleGrid.paint] at *
    simp [BrailleGrid.mk.injEq, List.set_eq_of_length_le h1,
      List.set_eq_of_length_le h2]
  · intro g x y c h1 h2
    obtain ⟨w, h, cells, cs, cc⟩ := g
    simp only [CharGrid.paint] at *
    simp [CharGrid.mk.injEq, List.set_eq_of_length_le h1,
      List.set_eq_of_length_le h2]
  · intro g x y c hlen hrow
    rw [HalfBlockGrid.paint]
    cases hp : g.pixels[y]? with
    | none =>
      have : g.pixels.length ≤ y := List.getElem?_eq_none_iff.mp hp
      simp only
      constructor
      · intro _
        left
        omega
      · intro _
        trivial
    | some row =>
      have hy : y < g.pixels.length := by
        rcases List.getElem?_eq_some_iff.mp hp with ⟨hn, _⟩
        exact hn
      have hmem : row ∈ g.pixels := by
        rcases List.getElem?_eq_some_iff.mp hp with ⟨hn, he⟩
        exact he ▸ List.getElem_mem hn
      have hrl : row.length = g.width := hrow row hmem
      simp only
      split
      · rename_i hx
        constructor
        · intro hcontra
          exact absurd hcontra (by simp)
        · intro hor
          omega
      · rename_i hx
        constructor
        · intro _
          right
          omega
        · intro _
          rfl

/-- C1 witness for the amended theorem: an index-out-of-bounds paint on a
2×2 `CharGrid` is a no-op, and painting `(2, 1)` on a 2×3 `HalfBlockGrid`
(whose dots range over `x < 2`, `y < 6`) panics because `x ≥ width`. -/
theorem paint_out_of_range_amended_witness :
    CharGrid.paint (CharGrid.new 2 2 'x') 0 2 Color.Red = CharGrid.new 2 2 'x' ∧
      HalfBlockGrid.paint (HalfBlockGrid.new 2 3) 2 1 Color.Red = none :=
  ⟨paint_out_of_range_amended.2.1 (CharGrid.new 2 2 'x') 0 2 Color.Red
      (by decide) (by decide),
    (paint_out_of_range_amended.2.2 (HalfBlockGrid.new 2 3) 2 1 Color.Red
      (by decide) (by decide)).mpr (Or.inr (by decide))⟩

/-- The per-pair character of `HalfBlockGrid::save` agrees with the claim's
case analysis. -/
theorem halfBlockChar_eq_claim (u l : Color) :
    halfBlockChar (u, l) = claimHalfBlockChar u l := by
  cases u <;> cases l <;> rfl

/-- The per-pair colors of `HalfBlockGrid::save` agree with the claim's case
analysis. -/
theorem halfBlockColors_eq_claim (u l : Color) :
    halfBlockColors (u, l) = claimHalfBlockColors u l := by
  cases u <;> cases l <;> rfl

/-- C4: `HalfBlockGrid::save` maps each vertical `(upper, lower)` pixel pair
to exactly one cell, with glyph and colors as the claim's five cases state:
blank / lower half / upper half / full block on equal non-reset colors /
upper half with foreground = upper, background = lower otherwise. -/
theorem halfblock_save_matches_claim (g : HalfBlockGrid) :
    g.save.string =
        ((verticalColorPairs g.pixels).map fun p => claimHalfBlockChar p.1 p.2) ∧
      g.save.colors =
        ((verticalColorPairs g.pixels).map fun p => claimHalfBlockColors p.1 p.2) := by
  constructor
  · rw [HalfBlockGrid.save]
    exact List.map_congr_left fun p _ => by
      obtain ⟨u, l⟩ := p
      exact halfBlockChar_eq_claim u l
  · rw [HalfBlockGrid.save]
    exact List.map_congr_left fun p _ => by
      obtain ⟨u, l⟩ := p
      exact halfBlockColors_eq_claim u l

/-- C6 counterexample: a dataset named 65534 columns wide (a representable
`u16` width) on a 10×40 graph area whose hidden-legend `Ratio(1,4)`
constraints allow at most 2 columns is a "legend too wide" state in the
claim's terms, yet the source's `u16` addition `inner_width + 2` itself
overflows before the guard is reached: a debug build panics (the modeled
`none`) and a release build wraps the width to 0 and renders a legend —
either way the claimed panic-free `None` legend area fails. -/
theorem chart_legend_claim_counterexample :
    chartLegendArea ⟨0, 0, 10, 40⟩ ( Constraint.Ratio 1 4) ( Constraint.Ratio 1 4)
      [65534] 0 0 LegendPosition.TopRight = none := by decide

/-- C6 (amended): during `Chart::layout`, provided the `u16` legend
arithmetic cannot overflow (each name width `w` has `w + 2 ≤ u16::MAX` and
the named-dataset count `n` has `n + 2 ≤ u16::MAX`), when the legend does
not fit — its width or height exceeds what the hidden-legend constraints
allow of the graph area (including the case of no named dataset), or the
vertical margin left after reserving the axis-title rows is negative — the
computed legend area is `none` (the legend is simply not rendered) and the
computation does not panic (the result is `some none`, never the panic
value `none`). -/
theorem chart_legend_none_when_too_small (graph : Rect) (cw ch : Constraint)
    (ws : List ℕ) (xt yt : ℕ) (pos : LegendPosition)
    (hw : ∀ w ∈ ws, w + 2 ≤ U16MAX)
    (hc : ws.length + 2 ≤ U16MAX)
    (h : (∀ iw, ws.max? = some iw →
            ¬(0 < iw ∧ iw + 2 ≤ splitOneLen graph.width cw ∧
              ws.length + 2 ≤ splitOneLen graph.height ch)) ∨
          (graph.height : ℤ) - ((ws.length : ℤ) + 2) -
            (if xt ≠ 0 then 1 else 0) - (if yt ≠ 0 then 1 else 0) < 0) :
    chartLegendArea graph cw ch ws xt yt pos = some none := by
  rw [chartLegendArea]
  cases hmax : ws.max? with
  | none => rfl
  | some iw =>
    have hiw : iw + 2 ≤ U16MAX :=
      hw iw (List.max?_mem (fun _ _ => max_choice _ _) hmax)
    have h1 : cadd iw 2 = some (iw + 2) := by
      rw [cadd, if_pos hiw]
    have hmod : ws.length % (U16MAX + 1) = ws.length :=
      Nat.mod_eq_of_lt (by simp only [U16MAX] at hc ⊢; omega)
    have h2 : cadd (ws.length % (U16MAX + 1)) 2 = some (ws.length + 2) := by
      rw [cadd, hmod, if_pos hc]
    simp only [h1, h2, Option.bind_eq_bind, Option.some_bind]
    by_cases hg : 0 < iw ∧ iw + 2 ≤ splitOneLen graph.width cw ∧
        ws.length + 2 ≤ splitOneLen graph.height ch
    · rw [if_pos hg]
      rcases h with h1 | h2
      · exact absurd hg (h1 iw hmax)
      · have hle : ws.length + 2 ≤ graph.height :=
          le_trans hg.2.2 (splitOneLen_le _ _)
        rw [LegendPosition.layout.eq_def]
        have hcs : csub graph.height (ws.length + 2) =
            some (graph.height - (ws.length + 2)) := by
          rw [csub, if_pos hle]
        rw [hcs]
        have hneg : ((graph.height - (ws.length + 2) : ℕ) : ℤ) -
            (if xt ≠ 0 then 1 else 0) - (if yt ≠ 0 then 1 else 0) < 0 := by
          have hcast : ((graph.height - (ws.length + 2) : ℕ) : ℤ) =
              (graph.height : ℤ) - ((ws.length : ℤ) + 2) := by
            omega
          rw [hcast]
          omega
        simp only [Option.bind_eq_bind, Option.some_bind]
        rw [if_pos hneg]
        rfl
    · rw [if_neg hg]
      rfl

/-- C6 witness: a 10×10 graph area whose hidden-legend constraints
(`Ratio(1,4)`) allow at most a 2-cell-wide legend cannot host the 5-wide
legend of a dataset named with 3 columns: the legend area is `none`, without
a panic. -/
theorem chart_legend_none_when_too_small_witness :
    chartLegendArea ⟨0, 0, 10, 10⟩ ( Constraint.Ratio 1 4) ( Constraint.Ratio 1 4)
      [3] 0 0 LegendPosition.TopRight = some none :=
  chart_legend_none_when_too_small ⟨0, 0, 10, 10⟩ ( Constraint.Ratio 1 4)
    ( Constraint.Ratio 1 4) [3] 0 0 LegendPosition.TopRight
    (by decide) (by decide) (Or.inl (by decide))

end Ratatui
